import Mathlib

/-!
Verification of the two M5Stack demo scripts
(src/examples/flash-sample.py, the extended variant, and
src/examples/flash-sample-simple.py, the simple variant).

The scripts are shallowly embedded: every pure computation of the loop body
becomes a Lean function of the loop counter or of the raw entropy fed to the
random source, and the control flow of the try/except loop becomes an
explicit per-iteration effect description.
-/

/-- Model of urandom.getrandbits(n): an arbitrary entropy word x reduced to
an unsigned integer in [0, 2^n). -/
def getrandbits (n x : ℕ) : ℕ := x % 2 ^ n

/-- random_color of flash-sample-simple.py: return urandom.getrandbits(16). -/
def random_color_simple (x : ℕ) : ℕ := getrandbits 16 x

/-- random_color of flash-sample.py: three draws of 5, 6 and 5 bits,
shifted into RGB565 position and OR-combined. -/
def random_color (xr xg xb : ℕ) : ℕ :=
  let r := getrandbits 5 xr <<< 11
  let g := getrandbits 6 xg <<< 5
  let b := getrandbits 5 xb
  r ||| g ||| b

/-- The RGB565 packing expression of random_color in flash-sample.py,
abstracted over the three already-drawn bit fields. -/
def pack565 (r g b : ℕ) : ℕ := (r <<< 11) ||| (g <<< 5) ||| b

/-- Red field recovered from a packed RGB565 value by shifting and masking
(5-bit field at bit 11). -/
def unpack565r (v : ℕ) : ℕ := (v >>> 11) &&& 31

/-- Green field recovered from a packed RGB565 value (6-bit field at bit 5). -/
def unpack565g (v : ℕ) : ℕ := (v >>> 5) &&& 63

/-- Blue field recovered from a packed RGB565 value (5-bit field at bit 0). -/
def unpack565b (v : ℕ) : ℕ := v &&& 31

/-- Upper-case hexadecimal digit character for a value in [0, 15],
as produced by the Python format specifier X. -/
def hexDigit (n : ℕ) : Char := if n < 10 then Char.ofNat (48 + n) else Char.ofNat (55 + n)

/-- Hex digit list of n, most significant first, empty for 0; the first
argument is structural fuel (any fuel at least n yields all digits). -/
def hexCharsAux : ℕ → ℕ → List Char
  | 0, _ => []
  | fuel + 1, n => if n = 0 then [] else hexCharsAux fuel (n / 16) ++ [hexDigit (n % 16)]

/-- Hex digit list of n as Python renders an integer in hex: at least one
digit, no leading zeros. -/
def hexDigits (n : ℕ) : List Char := if n = 0 then ['0'] else hexCharsAux n n

/-- The Python format specifier 06X: upper-case hex, zero-filled to a
minimum width of 6. -/
def fmt06X (n : ℕ) : String :=
  String.mk (List.replicate (6 - (hexDigits n).length) '0' ++ hexDigits n)

/-- The color-info line of flash-sample.py: f-string with text RGB: 0x and
the background color in 06X format. -/
def colorInfoText (c : ℕ) : String := "RGB: 0x" ++ fmt06X c

/-- The Python format specifier 02d: decimal, zero-filled to a minimum
width of 2. -/
def fmt02d (n : ℕ) : String := if n < 10 then "0" ++ toString n else toString n

/-- The minutes:seconds portion of the time display of flash-sample.py,
from the elapsed whole seconds e: minutes = e / 60, seconds = e % 60, each
in 02d format. -/
def timeMMSS (e : ℕ) : String := fmt02d (e / 60) ++ ":" ++ fmt02d (e % 60)

/-- The full text written to the time display label of flash-sample.py. -/
def timeText (e : ℕ) : String := "Time: " ++ timeMMSS e

/-- The title_colors list of flash-sample.py. -/
def title_colors : List ℕ :=
  [0xFFFFFF, 0xFF0000, 0x00FF00, 0x0000FF, 0xFFFF00, 0xFF00FF, 0x00FFFF]

/-- The title color selected on the iteration with counter value count:
title_colors[count % len(title_colors)]. The index is always in range, so
the default of getD is never returned. -/
def titleColor (count : ℕ) : ℕ := title_colors.getD (count % title_colors.length) 0

/-- The status text/color pair written on the iteration with counter value
count by the blink step of flash-sample.py. -/
def statusUpdate (count : ℕ) : String × ℕ :=
  if count % 4 < 2 then ("Status: ACTIVE", 0x00FF00) else ("Status: READY", 0x0088FF)

/-- The subtitle update of the button-polling step of flash-sample.py,
as a function of the three pressed states (in source order btnA, btnB,
btnC); the Bool component records whether the debounce sleep runs. -/
def buttonSubtitle (a b c : Bool) : String × ℕ × Bool :=
  if a then ("Button A Pressed!", 0xFF0000, true)
  else if b then ("Button B Pressed!", 0x00FF00, true)
  else if c then ("Button C Pressed!", 0x0000FF, true)
  else ("Random Color Background", 0xFFFF00, false)

/-- Claim C2: for every count, the title color is
title_colors[count mod 7] where title_colors is exactly the 7-entry palette
of the specification. -/
theorem titleColor_palette_cycle (count : ℕ) :
    titleColor count =
      [0xFFFFFF, 0xFF0000, 0x00FF00, 0x0000FF, 0xFFFF00, 0xFF00FF, 0x00FFFF].getD
        (count % 7) 0 ∧ title_colors.length = 7 := by
  constructor
  · rfl
  · rfl

/-- Claim C3: the status pair is the ACTIVE variant iff count mod 4 < 2,
and otherwise the READY variant (2-phase blink with period 4). -/
theorem statusUpdate_blink (count : ℕ) :
    (statusUpdate count = ("Status: ACTIVE", 0x00FF00) ↔ count % 4 < 2) ∧
      (statusUpdate count = ("Status: READY", 0x0088FF) ↔ ¬ count % 4 < 2) := by
  unfold statusUpdate
  by_cases h : count % 4 < 2 <;> simp [h]

/-- Claim C8: the three buttons are honored in priority order btnA, btnB,
btnC; a pressed button yields its specific message/color and the debounce
flag; with no button pressed the default subtitle is restored and no
debounce delay runs. -/
theorem buttonSubtitle_priority (a b c : Bool) :
    buttonSubtitle true b c = ("Button A Pressed!", 0xFF0000, true) ∧
    buttonSubtitle false true c = ("Button B Pressed!", 0x00FF00, true) ∧
    buttonSubtitle false false true = ("Button C Pressed!", 0x0000FF, true) ∧
    buttonSubtitle false false false = ("Random Color Background", 0xFFFF00, false) ∧
    ((buttonSubtitle a b c).2.2 = false ↔ a = false ∧ b = false ∧ c = false) := by
  cases a <;> cases b <;> cases c <;> simp [buttonSubtitle]

/-- Outcome of one iteration of a loop body: it either completes, or a
user interrupt (KeyboardInterrupt) is raised in it, or some other
exception with a message is raised in it. -/
inductive Event where
  | ok : Event
  | interrupt : Event
  | fault : String → Event

/-- What one pass of a try/except loop does with its event: whether the
loop proceeds to the next iteration, whether an exception escapes the loop
uncaught, what is printed, what is written to the status label, and how
long the pass sleeps at its end (in milliseconds). -/
structure IterEffect where
  continues : Bool
  uncaught : Bool
  logged : Option String
  statusSet : Option (String × ℕ)
  sleepMs : ℕ
deriving DecidableEq

/-- The try/except structure of the loop of flash-sample.py: a completed
pass sleeps 0.5 s and continues; KeyboardInterrupt prints a message and
breaks; any other exception prints its message, writes the error
text/color to the status label, sleeps 1 s and continues. -/
def extendedHandle : Event → IterEffect
  | .ok => ⟨true, false, none, none, 500⟩
  | .interrupt => ⟨false, false, some "Program interrupted by user", none, 0⟩
  | .fault msg =>
      ⟨true, false, some ("Error occurred: " ++ msg), some ("Status: ERROR", 0xFF0000), 1000⟩

/-- The try/except structure of the loop of flash-sample-simple.py: a
completed pass sleeps 1 s and continues; KeyboardInterrupt breaks; any
other exception is not caught and escapes the loop. -/
def simpleHandle : Event → IterEffect
  | .ok => ⟨true, false, none, none, 1000⟩
  | .interrupt => ⟨false, false, none, none, 0⟩
  | .fault _ => ⟨false, true, none, none, 0⟩

/-- Whether an event is the user interrupt. -/
def isInterrupt : Event → Bool
  | .interrupt => true
  | _ => false

/-- Whether iteration n of a loop with the given per-event handling
executes, given the event of each earlier iteration: iteration 0 always
starts, and iteration n+1 starts iff iteration n started and its pass
continued the loop. -/
def runContinues (handle : Event → IterEffect) (events : ℕ → Event) : ℕ → Bool
  | 0 => true
  | n + 1 => runContinues handle events n && (handle (events n)).continues

/-- In both loop bodies the statements before count += 1 are, in order:
the random_color call (statement 0) and the setScreenColor call
(statement 1); count += 1 is statement 2. A fault raised at statement k
leaves count unchanged when k ≤ 2 and count already incremented when
2 < k. -/
def incrementReached : Option ℕ → Bool
  | none => true
  | some k => decide (2 < k)

/-- Counter change of one iteration: count += 1 exactly when the
increment statement was reached (no fault, or the fault came later). -/
def countStep (fault : Option ℕ) (count : ℕ) : ℕ :=
  if incrementReached fault then count + 1 else count

/-- Counter value when iteration n starts, given for each earlier
iteration the statement index of its fault (none = no fault); count
starts at 0 before the loop. -/
def countRun (faults : ℕ → Option ℕ) : ℕ → ℕ
  | 0 => 0
  | n + 1 => countStep (faults n) (countRun faults n)

/-- Claim C9: the counter starts at 0, never decreases, grows by at most
one per iteration, and grows by exactly one on every iteration in which
the increment statement is reached — also on iterations that later end in
a caught fault. -/
theorem countRun_monotone_increment (faults : ℕ → Option ℕ) (n : ℕ) :
    countRun faults 0 = 0 ∧
    countRun faults n ≤ countRun faults (n + 1) ∧
    countRun faults (n + 1) ≤ countRun faults n + 1 ∧
    countRun faults (n + 1) =
      countRun faults n + (if incrementReached (faults n) then 1 else 0) := by
  refine ⟨rfl, ?_, ?_, ?_⟩ <;>
    · rw [show countRun faults (n + 1) = countStep (faults n) (countRun faults n) from rfl]
      unfold countStep
      by_cases h : incrementReached (faults n) = true <;> simp [h]

/-- Claim C1 counterexample: in the simple variant a fault that is not the
user interrupt is not caught — the pass does not continue the loop and the
exception escapes, so the next iteration does not execute. -/
theorem simpleHandle_fault_terminates :
    (simpleHandle (Event.fault "boom")).continues = false ∧
      (simpleHandle (Event.fault "boom")).uncaught = true ∧
      runContinues simpleHandle (fun _ => Event.fault "boom") 1 = false := by
  refine ⟨rfl, rfl, rfl⟩

/-- Claim C1 (amended to the extended variant): in flash-sample.py every
fault other than the user interrupt is caught: its message is printed, the
status label is set to the error text/color, the pass sleeps 1 s and the
loop continues; consequently iteration n executes iff no earlier iteration
raised the user interrupt — no fault ever terminates that loop. -/
theorem extendedHandle_fault_contained (msg : String) (events : ℕ → Event) (n : ℕ) :
    extendedHandle (Event.fault msg) =
      ⟨true, false, some ("Error occurred: " ++ msg), some ("Status: ERROR", 0xFF0000), 1000⟩ ∧
    runContinues extendedHandle events n =
      (List.range n).all (fun k => !isInterrupt (events k)) := by
  refine ⟨rfl, ?_⟩
  induction n with
  | zero => rfl
  | succ m ih =>
      have h1 : runContinues extendedHandle events (m + 1) =
          (runContinues extendedHandle events m && (extendedHandle (events m)).continues) := rfl
      have hc : (extendedHandle (events m)).continues = !isInterrupt (events m) := by
        cases events m <;> rfl
      rw [h1, ih, hc, List.range_succ, List.all_append]
      simp

/-- Claim C5: the time display decomposes elapsed whole seconds into
minutes = e / 60 and seconds = e % 60, each rendered in 02d format; the
concrete values 125, 59 and 0 render as 02:05, 00:59 and 00:00; the
seconds field always has exactly two characters. -/
theorem timeText_mmss :
    (∀ e : ℕ, timeText e = "Time: " ++ (fmt02d (e / 60) ++ ":" ++ fmt02d (e % 60))) ∧
    timeMMSS 125 = "02:05" ∧ timeMMSS 59 = "00:59" ∧ timeMMSS 0 = "00:00" ∧
    ∀ n : ℕ, (fmt02d (n % 60)).length = 2 := by
  refine ⟨fun e => rfl, by decide, by decide, by decide, fun n => ?_⟩
  have h : n % 60 < 60 := Nat.mod_lt _ (by norm_num)
  exact (by decide : ∀ m, m < 60 → (fmt02d m).length = 2) _ h

lemma hexCharsAux_length_le :
    ∀ (fuel n k : ℕ), n < 16 ^ k → (hexCharsAux fuel n).length ≤ k := by
  intro fuel
  induction fuel with
  | zero => intro n k _; simp [hexCharsAux]
  | succ f ih =>
      intro n k h
      unfold hexCharsAux
      by_cases hn : n = 0
      · simp [hn]
      · simp only [hn, if_false, List.length_append, List.length_cons, List.length_nil]
        cases k with
        | zero =>
            exfalso
            have : n < 1 := by simpa using h
            omega
        | succ k =>
            have hdiv : n / 16 < 16 ^ k := by
              have h16 : (0 : ℕ) < 16 := by norm_num
              rw [Nat.div_lt_iff_lt_mul h16]
              calc n < 16 ^ (k + 1) := h
                _ = 16 ^ k * 16 := by rw [pow_succ]
            have := ih (n / 16) k hdiv
            omega

lemma hexDigits_length_le (v k : ℕ) (hk : 1 ≤ k) (h : v < 16 ^ k) :
    (hexDigits v).length ≤ k := by
  unfold hexDigits
  by_cases hv : v = 0
  · simp [hv]; omega
  · simp only [hv, if_false]
    exact hexCharsAux_length_le v v k h

lemma colorInfoText_data (v : ℕ) :
    (colorInfoText v).data =
      "RGB: 0x".data ++ (List.replicate (6 - (hexDigits v).length) '0' ++ hexDigits v) := rfl

/-- Claim C6: the color-info line for any color below 16^6 is the fixed
7-character head RGB: 0x followed by exactly six hex characters, and for
the concrete color 0x00FF88 the full rendered line is RGB: 0x00FF88
(upper-case, zero-padded). -/
theorem colorInfoText_format (c : ℕ) (h : c < 16 ^ 6) :
    (fmt06X c).length = 6 ∧ (colorInfoText c).length = 13 ∧
      colorInfoText 0x00FF88 = "RGB: 0x00FF88" := by
  have hlen : (hexDigits c).length ≤ 6 := hexDigits_length_le c 6 (by norm_num) h
  have h6 : (fmt06X c).length = 6 := by
    show (String.mk (List.replicate (6 - (hexDigits c).length) '0' ++ hexDigits c)).length = 6
    show (List.replicate (6 - (hexDigits c).length) '0' ++ hexDigits c).length = 6
    rw [List.length_append, List.length_replicate]
    omega
  refine ⟨h6, ?_, by decide⟩
  show ("RGB: 0x".data ++ (fmt06X c).data).length = 13
  rw [List.length_append]
  have hdata : (fmt06X c).data.length = 6 := h6
  have h7 : ("RGB: 0x".data).length = 7 := rfl
  omega

/-- Shifting x left by n bits and OR-ing a value below 2^n concatenates
the bit fields: the OR is the sum 2^n * x + y. -/
lemma shiftLeft_or_eq_add (x y n : ℕ) (h : y < 2 ^ n) : (x <<< n) ||| y = 2 ^ n * x + y := by
  have h1 : x <<< n = 2 ^ n * x := by
    rw [Nat.shiftLeft_eq]
    exact Nat.mul_comm x (2 ^ n)
  rw [h1]
  exact (Nat.mul_add_lt_is_or h x).symm

lemma pack565_eq (r g b : ℕ) (hg : g < 64) (hb : b < 32) :
    pack565 r g b = 2048 * r + 32 * g + b := by
  unfold pack565
  have e5 : (2 : ℕ) ^ 5 = 32 := by norm_num
  have e11 : (2 : ℕ) ^ 11 = 2048 := by norm_num
  have h1 : (g <<< 5) ||| b = 2 ^ 5 * g + b := shiftLeft_or_eq_add g b 5 (by rw [e5]; exact hb)
  have h2 : (r <<< 11) ||| (2 ^ 5 * g + b) = 2 ^ 11 * r + (2 ^ 5 * g + b) :=
    shiftLeft_or_eq_add r _ 11 (by rw [e11, e5]; omega)
  rw [Nat.or_assoc, h1, h2, e5, e11]
  ring

lemma and_31_eq_mod (m : ℕ) : m &&& 31 = m % 32 := by
  have h := Nat.and_pow_two_sub_one_eq_mod m 5
  norm_num at h
  exact h

lemma and_63_eq_mod (m : ℕ) : m &&& 63 = m % 64 := by
  have h := Nat.and_pow_two_sub_one_eq_mod m 6
  norm_num at h
  exact h

/-- Claim C7: for in-range field values the RGB565 packing is exactly
(r<<11) | (g<<5) | b, and unpacking that value by shifting and masking
recovers each field. -/
theorem pack565_roundtrip (r g b : ℕ) (hr : r < 32) (hg : g < 64) (hb : b < 32) :
    pack565 r g b = (r <<< 11) ||| (g <<< 5) ||| b ∧
    unpack565r (pack565 r g b) = r ∧
    unpack565g (pack565 r g b) = g ∧
    unpack565b (pack565 r g b) = b := by
  have hp := pack565_eq r g b hg hb
  have e11 : (2 : ℕ) ^ 11 = 2048 := by norm_num
  have e5 : (2 : ℕ) ^ 5 = 32 := by norm_num
  refine ⟨rfl, ?_, ?_, ?_⟩
  · unfold unpack565r
    rw [hp, Nat.shiftRight_eq_div_pow, and_31_eq_mod, e11]
    omega
  · unfold unpack565g
    rw [hp, Nat.shiftRight_eq_div_pow, and_63_eq_mod, e5]
    omega
  · unfold unpack565b
    rw [hp, and_31_eq_mod]
    omega

/-- Witness for C7 at r = 5, g = 40, b = 17. -/
theorem pack565_roundtrip_witness :
    (5 : ℕ) < 32 ∧ (40 : ℕ) < 64 ∧ (17 : ℕ) < 32 ∧
      (pack565 5 40 17 = (5 <<< 11) ||| (40 <<< 5) ||| 17 ∧
       unpack565r (pack565 5 40 17) = 5 ∧
       unpack565g (pack565 5 40 17) = 40 ∧
       unpack565b (pack565 5 40 17) = 17) :=
  ⟨by decide, by decide, by decide,
    pack565_roundtrip 5 40 17 (by decide) (by decide) (by decide)⟩

/-- Witness for C6 at color 0x00FF88. -/
theorem colorInfoText_format_witness :
    (0x00FF88 : ℕ) < 16 ^ 6 ∧
      ((fmt06X 0x00FF88).length = 6 ∧ (colorInfoText 0x00FF88).length = 13 ∧
        colorInfoText 0x00FF88 = "RGB: 0x00FF88") :=
  ⟨by decide, colorInfoText_format 0x00FF88 (by decide)⟩

lemma colorInfo_head (v : ℕ) (h : v < 65536) :
    ∃ t : List Char, (colorInfoText v).data = "RGB: 0x00".data ++ t := by
  have h4 : v < 16 ^ 4 := by
    have : (16 : ℕ) ^ 4 = 65536 := by norm_num
    omega
  have hlen : (hexDigits v).length ≤ 4 := hexDigits_length_le v 4 (by norm_num) h4
  refine ⟨List.replicate (6 - (hexDigits v).length - 2) '0' ++ hexDigits v, ?_⟩
  rw [colorInfoText_data]
  have hrep : List.replicate (6 - (hexDigits v).length) '0' =
      '0' :: '0' :: List.replicate (6 - (hexDigits v).length - 2) '0' := by
    have hs : 6 - (hexDigits v).length = (6 - (hexDigits v).length - 2) + 2 := by omega
    rw [hs]
    rfl
  rw [hrep]
  rfl

lemma random_color_fields (xr xg xb : ℕ) :
    random_color xr xg xb =
      pack565 (getrandbits 5 xr) (getrandbits 6 xg) (getrandbits 5 xb) := rfl

/-- Claim C10: random_color of the simple variant always lies in
[0, 65535]; random_color of the extended variant equals the sum of its
three disjoint shifted bit fields (the OR adds nothing) and also lies in
[0, 65535]; hence its color-info line always starts with RGB: 0x00. -/
theorem random_color_sixteen_bit (x xr xg xb : ℕ) :
    random_color_simple x < 65536 ∧
    random_color xr xg xb =
      getrandbits 5 xr * 2 ^ 11 + getrandbits 6 xg * 2 ^ 5 + getrandbits 5 xb ∧
    random_color xr xg xb < 65536 ∧
    ∃ t : List Char, (colorInfoText (random_color xr xg xb)).data = "RGB: 0x00".data ++ t := by
  have hr : getrandbits 5 xr < 32 := by
    have : xr % 2 ^ 5 < 2 ^ 5 := Nat.mod_lt _ (by norm_num)
    simpa [getrandbits] using this
  have hg : getrandbits 6 xg < 64 := by
    have : xg % 2 ^ 6 < 2 ^ 6 := Nat.mod_lt _ (by norm_num)
    simpa [getrandbits] using this
  have hb : getrandbits 5 xb < 32 := by
    have : xb % 2 ^ 5 < 2 ^ 5 := Nat.mod_lt _ (by norm_num)
    simpa [getrandbits] using this
  have hsum : random_color xr xg xb =
      2048 * getrandbits 5 xr + 32 * getrandbits 6 xg + getrandbits 5 xb := by
    rw [random_color_fields]
    exact pack565_eq _ _ _ hg hb
  have hlt : random_color xr xg xb < 65536 := by
    rw [hsum]
    omega
  refine ⟨?_, ?_, hlt, colorInfo_head _ hlt⟩
  · have : x % 2 ^ 16 < 2 ^ 16 := Nat.mod_lt _ (by norm_num)
    simpa [random_color_simple, getrandbits] using this
  · rw [hsum]
    ring

/-- The Python int() conversion applied to a real value: truncation toward
zero (floor for non-negative arguments, ceiling for negative ones). -/
noncomputable def pythonInt (x : ℝ) : ℤ := if 0 ≤ x then ⌊x⌋ else ⌈x⌉

/-- The progress-bar fill width of flash-sample.py:
int(150 * (math.sin(count * 0.2) + 1)). -/
noncomputable def progressWidth (count : ℕ) : ℤ :=
  pythonInt (150 * (Real.sin ((count : ℝ) * 0.2) + 1))

/-- Modelled from the spec: the fill width as the specification states it,
round(150 * (sin(count * 0.2) + 1)) — to be compared with progressWidth,
which embeds the actual int() truncation of the source. -/
noncomputable def progressWidthSpec (count : ℕ) : ℤ :=
  round ((150 : ℝ) * (Real.sin ((count : ℝ) * 0.2) + 1))

/-- Claim C4 counterexample: at count = 1 the computed fill width is the
truncation 179 while rounding gives 180, so the width does not equal the
rounded value the claim states. -/
theorem progressWidth_not_round : progressWidth 1 ≠ progressWidthSpec 1 := by
  have h1 : Real.sin 0.2 < 0.2 := Real.sin_lt (by norm_num)
  have h2 : (0.198 : ℝ) < Real.sin 0.2 := by
    have h3 := @Real.sin_gt_sub_cube (0.2 : ℝ) (by norm_num) (by norm_num)
    nlinarith [h3]
  have hx1 : (179.7 : ℝ) < 150 * (Real.sin 0.2 + 1) := by nlinarith
  have hx2 : (150 : ℝ) * (Real.sin 0.2 + 1) < 180 := by nlinarith
  have hx0 : (0 : ℝ) ≤ 150 * (Real.sin 0.2 + 1) := by nlinarith
  have key : ((1 : ℕ) : ℝ) * 0.2 = 0.2 := by norm_num
  have hw : progressWidth 1 = 179 := by
    unfold progressWidth pythonInt
    rw [key, if_pos hx0, Int.floor_eq_iff]
    refine ⟨by push_cast; linarith, by push_cast; linarith⟩
  have hspec : progressWidthSpec 1 = 180 := by
    unfold progressWidthSpec
    rw [key, round_eq, Int.floor_eq_iff]
    refine ⟨by push_cast; linarith, by push_cast; linarith⟩
  rw [hw, hspec]
  decide

/-- Claim C4 (amended): the computed fill width is int(), i.e. downward
truncation, of 150 * (sin(count * 0.2) + 1) — not round() — and for every
count it lies in [0, 300] inclusive. -/
theorem progressWidth_bounds (count : ℕ) :
    0 ≤ progressWidth count ∧ progressWidth count ≤ 300 := by
  have hs1 : -1 ≤ Real.sin ((count : ℝ) * 0.2) := Real.neg_one_le_sin _
  have hs2 : Real.sin ((count : ℝ) * 0.2) ≤ 1 := Real.sin_le_one _
  have hx0 : (0 : ℝ) ≤ 150 * (Real.sin ((count : ℝ) * 0.2) + 1) := by nlinarith
  have hx300 : (150 : ℝ) * (Real.sin ((count : ℝ) * 0.2) + 1) ≤ 300 := by nlinarith
  have hpi : progressWidth count = ⌊(150 : ℝ) * (Real.sin ((count : ℝ) * 0.2) + 1)⌋ := by
    unfold progressWidth pythonInt
    exact if_pos hx0
  rw [hpi]
  constructor
  · exact Int.le_floor.mpr (by exact_mod_cast hx0)
  · have h1 : (⌊(150 : ℝ) * (Real.sin ((count : ℝ) * 0.2) + 1)⌋ : ℝ) ≤
        150 * (Real.sin ((count : ℝ) * 0.2) + 1) := Int.floor_le _
    exact_mod_cast le_trans h1 hx300
